import Mathlib

/-!
Shallow embedding of the Fundamint financial-metrics and web-data-imputation
pipeline (backend plan `ENHANCED_AGENT_TOOLS_PLAN.md`) and of two frontend
computations (`CompetitorComparison.tsx` / `PriceProjectionAnalysis.tsx`,
`lib/api/client.ts`), with theorems checking the specification's claims.

Numbers are modelled as rationals (`ℚ`); JavaScript/Python `null` as `Option`;
fallible code returns `Except`.  Components whose bodies are absent from the
repository (only declared or sketched in the plan document) are modelled from
the specification text and marked `Modelled from the spec:` in their doc
comments.
-/

namespace Fundamint

/-- Clamp a rational to the interval [0,1]. -/
def clamp01 (x : ℚ) : ℚ := max 0 (min 1 x)

theorem clamp01_mono {x y : ℚ} (h : x ≤ y) : clamp01 x ≤ clamp01 y := by
  unfold clamp01
  exact max_le_max le_rfl (min_le_min le_rfl h)

/-! ## Source Credibility Model (spec §4.5, plan `score_data_source_credibility`) -/

/-- Modelled from the spec: the authority tier table of the Source Credibility
Model (`score_data_source_credibility` has only a docstring in the plan:
"Source authority (SEC > Bloomberg > Yahoo Finance > Forums)").  Regulatory
filing domains rank above major financial-data vendors, above general
news/blog, above forum/unranked. -/
inductive AuthorityTier : Type
| forum : AuthorityTier
| news : AuthorityTier
| vendor : AuthorityTier
| regulatory : AuthorityTier
deriving DecidableEq

/-- Numeric rank of an authority tier (higher = more authoritative). -/
def AuthorityTier.rank : AuthorityTier → ℕ
| .forum => 0
| .news => 1
| .vendor => 2
| .regulatory => 3

/-- Modelled from the spec: base credibility score contributed by the
authority tier table (§4.5: "a small authority tier table ... contributes a
base score"). -/
def tierBase : AuthorityTier → ℚ
| .forum => 3/10
| .news => 1/2
| .vendor => 7/10
| .regulatory => 9/10

/-- Modelled from the spec: recency adjustment (§4.5: "explicit date proximity
to `current` adds a bonus, staleness subtracts").  The input is the age of the
data in days; fresher data never scores lower. -/
def recencyAdj (ageDays : ℕ) : ℚ :=
if ageDays ≤ 30 then 1/10 else if ageDays ≤ 365 then 0 else -(1/10)

/-- Modelled from the spec: the Source Credibility Model
`score(domain, content_shape, recency) -> float in [0,1]` (§4.5; the plan's
`score_data_source_credibility` has no body).  The domain contributes a tier
base score, structured numeric formatting (a shape score in [0,1]) adds a
bonus, and recency adjusts; the result is clamped to [0,1]. -/
def score_data_source_credibility (tier : AuthorityTier) (structureScore : ℚ)
    (ageDays : ℕ) : ℚ :=
  clamp01 (tierBase tier + structureScore / 10 + recencyAdj ageDays)

theorem tierBase_mono {t₁ t₂ : AuthorityTier} (h : t₁.rank ≤ t₂.rank) :
    tierBase t₁ ≤ tierBase t₂ := by
  cases t₁ <;> cases t₂ <;>
    simp_all [tierBase, AuthorityTier.rank] <;> norm_num

theorem recencyAdj_antitone {a₁ a₂ : ℕ} (h : a₁ ≤ a₂) :
    recencyAdj a₂ ≤ recencyAdj a₁ := by
  unfold recencyAdj
  split_ifs <;> norm_num <;> omega

/-- C3: the Source Credibility Model is monotone in each input independently:
raising the authority tier, the structure score, or the recency (i.e. lowering
the age) of a source, holding the other two inputs fixed, never decreases the
returned score. -/
theorem credibility_score_monotone (t₁ t₂ : AuthorityTier) (s₁ s₂ : ℚ)
    (a₁ a₂ : ℕ) (ht : t₁.rank ≤ t₂.rank) (hs : s₁ ≤ s₂) (ha : a₁ ≤ a₂) :
    score_data_source_credibility t₁ s₁ a₁ ≤
      score_data_source_credibility t₂ s₁ a₁ ∧
    score_data_source_credibility t₁ s₁ a₁ ≤
      score_data_source_credibility t₁ s₂ a₁ ∧
    score_data_source_credibility t₁ s₁ a₂ ≤
      score_data_source_credibility t₁ s₁ a₁ := by
  unfold score_data_source_credibility
  refine ⟨clamp01_mono ?_, clamp01_mono ?_, clamp01_mono ?_⟩
  · have := tierBase_mono ht
    linarith
  · linarith
  · have := recencyAdj_antitone ha
    linarith

/-- Witness for C3 at concrete inputs: news < vendor tier, structure scores
0.2 ≤ 0.8, ages 10 ≤ 400 days. -/
theorem credibility_score_monotone_witness :
    AuthorityTier.rank .news ≤ AuthorityTier.rank .vendor ∧
    (2/10 : ℚ) ≤ 8/10 ∧ (10 : ℕ) ≤ 400 ∧
    (score_data_source_credibility .news (2/10) 10 ≤
       score_data_source_credibility .vendor (2/10) 10 ∧
     score_data_source_credibility .news (2/10) 10 ≤
       score_data_source_credibility .news (8/10) 10 ∧
     score_data_source_credibility .news (2/10) 400 ≤
       score_data_source_credibility .news (2/10) 10) :=
  ⟨by decide, by norm_num, by norm_num,
   credibility_score_monotone .news .vendor (2/10) (8/10) 10 400
     (by decide) (by norm_num) (by norm_num)⟩

/-! ## Query Generator (plan `SearchQueryGenerator`, spec §4.2) -/

/-- The per-(strategy, field) query template table
(`SearchQueryGenerator.QUERY_TEMPLATES`), looked up with the double
`.get(strategy, {}).get(field, [])` default chain of `generate_queries`:
an unknown strategy or field yields the empty template list. -/
def lookupTemplates (strategy field : String) : List String :=
  if strategy = "phil_town" then
    if field = "roic" then
      ["{ticker} return on invested capital ROIC 2024",
       "{ticker} 10-K SEC filing ROIC operating income",
       "{ticker} NOPAT invested capital calculation",
       "site:sec.gov {ticker} annual report ROIC"]
    else if field = "eps_growth" then
      ["{ticker} earnings per share growth rate historical",
       "{ticker} EPS CAGR 5 year 10 year analysis",
       "site:finance.yahoo.com {ticker} earnings growth",
       "{ticker} analyst EPS growth estimates"]
    else if field = "debt_payoff" then
      ["{ticker} long term debt free cash flow ratio",
       "{ticker} balance sheet debt cash flow statement",
       "{ticker} debt payoff capability years FCF",
       "site:morningstar.com {ticker} debt analysis"]
    else []
  else if strategy = "high_growth" then
    if field = "net_margin_trend" then
      ["{ticker} net profit margin trend 5 years",
       "{ticker} profitability margins expanding contracting",
       "{ticker} quarterly earnings margin analysis",
       "site:bloomberg.com {ticker} margin expansion"]
    else if field = "sales_growth" then
      ["{ticker} revenue growth CAGR compound annual",
       "{ticker} sales growth rate quarterly annual",
       "{ticker} top line growth acceleration",
       "site:seekingalpha.com {ticker} revenue growth"]
    else []
  else []

/-- `SearchQueryGenerator.generate_queries`: look up the template list for the
(strategy, field) pair and substitute the uppercased ticker for the
`\x7bticker\x7d` placeholder (Python `template.format(ticker=ticker.upper())`). -/
def generate_queries (ticker field strategy : String) : List String :=
  (lookupTemplates strategy field).map
    (fun t => t.replace "{ticker}" ticker.toUpper)

theorem lookupTemplates_length_le (strategy field : String) :
    (lookupTemplates strategy field).length ≤ 4 := by
  unfold lookupTemplates
  split_ifs <;> simp

/-- C6 counterexample: for the known strategy `phil_town` and the field
`ebit` (which has extraction patterns but no query templates),
`generate_queries` returns the empty list — there is no generic fallback
template set, refuting the claimed non-emptiness. -/
theorem generate_queries_ebit_empty :
    generate_queries "AAPL" "ebit" "phil_town" = [] := by
  decide

/-- C6 (amended): for every ticker, field and strategy, the Query Generator
returns the per-(strategy, field) template list with the ticker placeholder
substituted by the uppercased ticker — at most 4 queries, and the empty list
(not an error) when no templates exist for the pair; there is no generic
fallback template set. -/
theorem generate_queries_spec (ticker field strategy : String) :
    (generate_queries ticker field strategy).length ≤ 4 ∧
    (generate_queries ticker field strategy).length =
      (lookupTemplates strategy field).length ∧
    ∀ q ∈ generate_queries ticker field strategy,
      ∃ t ∈ lookupTemplates strategy field,
        q = t.replace "{ticker}" ticker.toUpper := by
  refine ⟨?_, ?_, ?_⟩
  · unfold generate_queries
    rw [List.length_map]
    exact lookupTemplates_length_le strategy field
  · unfold generate_queries
    exact List.length_map _ _
  · intro q hq
    unfold generate_queries at hq
    rcases List.mem_map.mp hq with ⟨t, ht, rfl⟩
    exact ⟨t, ht, rfl⟩

/-- Witness for C6 (amended): for ticker `aapl`, field `roic`, strategy
`phil_town`, the bound holds and the first generated query is the first
template with the uppercased ticker substituted. -/
theorem generate_queries_spec_witness :
    ((generate_queries "aapl" "roic" "phil_town").length ≤ 4) ∧
    ("{ticker} return on invested capital ROIC 2024".replace "{ticker}"
        "aapl".toUpper) ∈ generate_queries "aapl" "roic" "phil_town" ∧
    ∃ t ∈ lookupTemplates "phil_town" "roic",
      ("{ticker} return on invested capital ROIC 2024".replace "{ticker}"
        "aapl".toUpper) = t.replace "{ticker}" "aapl".toUpper := by
  have hq : ("{ticker} return on invested capital ROIC 2024".replace
      "{ticker}" "aapl".toUpper) ∈
      generate_queries "aapl" "roic" "phil_town" := by
    unfold generate_queries lookupTemplates
    simp
  exact ⟨(generate_queries_spec "aapl" "roic" "phil_town").1, hq,
    (generate_queries_spec "aapl" "roic" "phil_town").2.2 _ hq⟩

/-! ## Price projection (frontend `CompetitorComparison.tsx` and
`PriceProjectionAnalysis.tsx`) -/

/-- `ProjectionDefaults` interface shared by both components. -/
structure ProjectionDefaults where
  revenue_growth_pct : ℚ
  net_margin_pct : ℚ
  target_pe : ℚ
  target_ps : ℚ
  share_change_pct : ℚ
  projection_years : ℚ
deriving DecidableEq

/-- The projection endpoint payload fields both components consume
(`ProjectionData`): numbers are rationals, nullable fields are `Option`, and
`negative_analysis?.use_price_to_sales` collapses to an optional flag. -/
structure ProjectionData where
  current_price : ℚ
  current_revenue : Option ℚ
  current_shares : Option ℚ
  market_cap : Option ℚ
  defaults : ProjectionDefaults
  negative_analysis : Option Bool
deriving DecidableEq

/-- JavaScript truthiness for an optional number: `null` and `0` are falsy. -/
def jsTruthy : Option ℚ → Bool
| none => false
| some v => decide (v ≠ 0)

/-- The `currentShares` chain both components compute:
`projData.current_shares || (projData.market_cap ? projData.market_cap / currentPrice : null)`. -/
def sharesFallback (currentShares marketCap : Option ℚ) (currentPrice : ℚ) :
    Option ℚ :=
  if jsTruthy currentShares then currentShares
  else if jsTruthy marketCap then some ((marketCap.getD 0) / currentPrice)
  else none

/-- `CompetitorProjection` of `CompetitorComparison.tsx`. -/
structure CompetitorProjection where
  futurePrice : ℚ
  cagr : ℚ
deriving DecidableEq

/-- `calculateProjection` of `CompetitorComparison.tsx` (the competitor table's
Recipe-Framework projection).  `powQ` stands for the injected `Math.pow`
capability; both frontend computations call the same one. -/
def calculateProjection (powQ : ℚ → ℚ → ℚ) (projData : ProjectionData)
    (years : ℚ) : Option CompetitorProjection :=
  if ¬ jsTruthy (some projData.current_price) ∨
      ¬ jsTruthy projData.current_revenue then none
  else
    let currentRevenue := projData.current_revenue.getD 0
    let currentPrice := projData.current_price
    let currentShares? := sharesFallback projData.current_shares
      projData.market_cap currentPrice
    if ¬ jsTruthy currentShares? then none
    else
      let currentShares := currentShares?.getD 0
      let usePriceToSales := projData.negative_analysis.getD false
      let futureRevenue := currentRevenue *
        powQ (1 + projData.defaults.revenue_growth_pct / 100) years
      let futureMarketCap :=
        if usePriceToSales then futureRevenue * projData.defaults.target_ps
        else futureRevenue * (projData.defaults.net_margin_pct / 100) *
          projData.defaults.target_pe
      let futureShares := currentShares *
        powQ (1 + projData.defaults.share_change_pct / 100) years
      let futurePrice := futureMarketCap / futureShares
      let cagr := (powQ (futurePrice / currentPrice) (1 / years) - 1) * 100
      some ⟨futurePrice, cagr⟩

/-- The record built by the `projection` `useMemo` of
`PriceProjectionAnalysis.tsx`. -/
structure ProjectionResult where
  futureRevenue : ℚ
  futureNetIncome : Option ℚ
  futureMarketCap : ℚ
  futureShares : ℚ
  futurePrice : ℚ
  cagr : ℚ
  currentPrice : ℚ
  currentShares : ℚ
  currentRevenue : ℚ
  usePriceToSales : Bool
deriving DecidableEq

/-- The `projection` `useMemo` computation of `PriceProjectionAnalysis.tsx`,
as a function of the fetched data and the six slider/dropdown states it
depends on (`revenueGrowth`, `netMargin`, `targetPE`, `targetPS`,
`shareChange`, `years`). -/
def projectionMemo (powQ : ℚ → ℚ → ℚ) (data : ProjectionData)
    (revenueGrowth netMargin targetPE targetPS shareChange years : ℚ) :
    Option ProjectionResult :=
  if ¬ jsTruthy (some data.current_price) ∨
      ¬ jsTruthy data.current_revenue then none
  else
    let currentRevenue := data.current_revenue.getD 0
    let currentPrice := data.current_price
    let currentShares? := sharesFallback data.current_shares
      data.market_cap currentPrice
    let usePriceToSales := data.negative_analysis.getD false
    if ¬ jsTruthy currentShares? then none
    else
      let currentShares := currentShares?.getD 0
      let futureRevenue := currentRevenue * powQ (1 + revenueGrowth / 100) years
      let futureNetIncome : Option ℚ :=
        if usePriceToSales then none
        else some (futureRevenue * (netMargin / 100))
      let futureMarketCap :=
        if usePriceToSales then futureRevenue * targetPS
        else futureRevenue * (netMargin / 100) * targetPE
      let futureShares := currentShares * powQ (1 + shareChange / 100) years
      let futurePrice := futureMarketCap / futureShares
      let cagr := (powQ (futurePrice / currentPrice) (1 / years) - 1) * 100
      some ⟨futureRevenue, futureNetIncome, futureMarketCap, futureShares,
        futurePrice, cagr, currentPrice, currentShares, currentRevenue,
        usePriceToSales⟩

/-- C9: on identical inputs — the same projection payload (current price,
revenue, shares or market-cap fallback, `use_price_to_sales` flag), the
slider parameters equal to the payload's defaults, the same number of years
and the same `Math.pow` capability — the competitor-comparison
`calculateProjection` and the `projection` memo of `PriceProjectionAnalysis`
produce the same `futurePrice` and the same `cagr`. -/
theorem projection_equivalence (powQ : ℚ → ℚ → ℚ) (pd : ProjectionData)
    (years : ℚ) :
    (projectionMemo powQ pd pd.defaults.revenue_growth_pct
        pd.defaults.net_margin_pct pd.defaults.target_pe
        pd.defaults.target_ps pd.defaults.share_change_pct years).map
      (fun r => (r.futurePrice, r.cagr)) =
    (calculateProjection powQ pd years).map
      (fun p => (p.futurePrice, p.cagr)) := by
  unfold projectionMemo calculateProjection
  split_ifs <;> simp_all
  split <;> simp_all

/-! ## Validator/Reconciler (spec §4.6; the plan's `WebDataValidator` and
`web_data_validator` carry only docstrings, so the algorithm is modelled from
the spec) -/

/-- `SearchCandidate` (spec §3): one unvalidated numeric extraction from a
single document for one field. -/
structure SearchCandidate where
  field : String
  rawText : String
  parsedValue : ℚ
  unit : String
  sourceUrl : String
  sourceDomain : String
  retrievedAt : ℕ
deriving DecidableEq

/-- `ValidationResult` (spec §3): terminal artifact of imputation for one
field. -/
structure ValidationResult where
  field : String
  best_value : Option ℚ
  confidence : ℚ
  sources : List String
  alternatives : List (ℚ × String)
  notes : String
deriving DecidableEq

/-- Modelled from the spec: the authority tier of a source domain
(plan docstring "SEC > Bloomberg > Yahoo Finance > Forums"; the
`source_rankings.py` table is absent from the repository). -/
def domainTier (domain : String) : AuthorityTier :=
  if domain = "sec.gov" then .regulatory
  else if domain = "bloomberg.com" ∨ domain = "morningstar.com" then .vendor
  else if domain = "finance.yahoo.com" ∨ domain = "seekingalpha.com" then
    .news
  else .forum

/-- Modelled from the spec: a candidate's credibility, obtained from the
Source Credibility Model at the candidate's domain and age relative to `now`
(content-shape score fixed at 1 since `SearchCandidate` carries no shape). -/
def defaultCred (now : ℕ) (c : SearchCandidate) : ℚ :=
  score_data_source_credibility (domainTier c.sourceDomain) 1
    (now - c.retrievedAt)

/-- Modelled from the spec: per-field sanity ranges (§4.6 step 3: "a margin
outside [-100%, 100%], a multiple outside [0, 10000]"); fields without a
known range pass. -/
def saneValue (field : String) (v : ℚ) : Bool :=
  if field = "roic" ∨ field = "net_margin" ∨ field = "roe" ∨
      field = "eps_growth" ∨ field = "sales_growth" then
    decide (-100 ≤ v ∧ v ≤ 100)
  else if field = "per" ∨ field = "psr" ∨ field = "ev_to_ebitda" then
    decide (0 ≤ v ∧ v ≤ 10000)
  else true

/-- A candidate surviving the sanity check for its field. -/
def saneCand (field : String) (c : SearchCandidate) : Bool :=
  saneValue field c.parsedValue

/-- Modelled from the spec: the relative tolerance band of §4.6 step 1 —
`b` corroborates `a` when it lies within 2% of `a`. -/
def nearQ (a b : ℚ) : Bool := decide (|a - b| * 50 ≤ |a|)

/-- Modelled from the spec (§4.6 step 2): the aggregate credibility score of
the value-cluster around candidate `c` — the sum of the credibility of every
pool member whose value lies within the tolerance band of `c`'s value. -/
def clusterScore (cred : SearchCandidate → ℚ) (pool : List SearchCandidate)
    (c : SearchCandidate) : ℚ :=
  ((pool.filter (fun d => nearQ c.parsedValue d.parsedValue)).map cred).sum

/-- Selection key of a candidate (§4.6 step 2 tie-break order): aggregate
cluster credibility first, then most recent `retrieved_at`, then the value
itself, compared lexicographically. -/
def candKey (cred : SearchCandidate → ℚ) (pool : List SearchCandidate)
    (c : SearchCandidate) : Lex (ℚ × Lex (ℕ × ℚ)) :=
  toLex (clusterScore cred pool c, toLex (c.retrievedAt, c.parsedValue))

/-- Fold a list down to its greatest key (`none` on the empty list). -/
def bestLexKey {α K : Type} [LinearOrder K] (key : α → K) (l : List α) :
    Option K :=
  l.foldl
    (fun acc c =>
      some (match acc with
            | none => key c
            | some k => max k (key c)))
    none

theorem bestLexKey_perm {α K : Type} [LinearOrder K] (key : α → K)
    {l₁ l₂ : List α} (h : l₁.Perm l₂) :
    bestLexKey key l₁ = bestLexKey key l₂ := by
  unfold bestLexKey
  haveI : RightCommutative
      (fun (acc : Option K) (c : α) =>
        some (match acc with
              | none => key c
              | some k => max k (key c))) := by
    constructor
    intro b a₁ a₂
    cases b
    · simp [max_comm]
    · simp [sup_right_comm]
  exact h.foldl_eq none

/-- Modelled from the spec: the Validator/Reconciler for one field (§4.6).
Out-of-range candidates are demoted to `alternatives` (step 3); survivors are
clustered by relative value tolerance and each cluster scored by aggregate
source credibility (steps 1–2); the winner is the highest aggregate score,
ties broken by most recent `retrieved_at` (then by value); confidence is the
winning cluster's aggregate credibility clamped to [0,1] (step 4), and with
no surviving candidate the result is `best_value = none`, `confidence = 0` —
a valid result, not a failure (the function is total). -/
def validateField (cred : SearchCandidate → ℚ) (field : String)
    (cands : List SearchCandidate) : ValidationResult :=
  let survivors := cands.filter (saneCand field)
  let alts := (cands.filter (fun c => ! saneCand field c)).map
    (fun c => (c.parsedValue, c.sourceUrl))
  match bestLexKey (candKey cred survivors) survivors with
  | none => ⟨field, none, 0, [], alts, "no data found"⟩
  | some k =>
    ⟨field, some (ofLex (ofLex k).2).2, clamp01 (ofLex k).1,
     (survivors.filter (fun d => nearQ (ofLex (ofLex k).2).2 d.parsedValue)).map
       (fun d => d.sourceUrl),
     alts, "winning cluster selected by aggregate credibility"⟩

/-- C1: the Validator/Reconciler is order-insensitive — for any credibility
model, field, and permutation of the same candidate list it returns the same
`best_value` and the same `confidence`. -/
theorem validator_order_insensitive (cred : SearchCandidate → ℚ)
    (field : String) (l₁ l₂ : List SearchCandidate) (h : l₁.Perm l₂) :
    (validateField cred field l₁).best_value =
      (validateField cred field l₂).best_value ∧
    (validateField cred field l₁).confidence =
      (validateField cred field l₂).confidence := by
  have hs : (l₁.filter (saneCand field)).Perm (l₂.filter (saneCand field)) :=
    h.filter _
  have hscore : ∀ c, clusterScore cred (l₁.filter (saneCand field)) c =
      clusterScore cred (l₂.filter (saneCand field)) c := by
    intro c
    unfold clusterScore
    exact ((hs.filter _).map cred).sum_eq
  have hkey : candKey cred (l₁.filter (saneCand field)) =
      candKey cred (l₂.filter (saneCand field)) := by
    funext c
    unfold candKey
    rw [hscore]
  have hbest : bestLexKey (candKey cred (l₁.filter (saneCand field)))
        (l₁.filter (saneCand field)) =
      bestLexKey (candKey cred (l₂.filter (saneCand field)))
        (l₂.filter (saneCand field)) := by
    rw [hkey]
    exact bestLexKey_perm _ hs
  simp only [validateField]
  rw [hbest]
  cases bestLexKey (candKey cred (l₂.filter (saneCand field)))
    (l₂.filter (saneCand field)) <;> simp

/-- Two concrete candidates for the order-insensitivity witness. -/
def candFiling : SearchCandidate :=
  ⟨"roic", "ROIC: 25.2%", 252/10, "%", "https://sec.gov/a", "sec.gov", 90⟩

/-- A forum candidate disagreeing with `candFiling`. -/
def candForum : SearchCandidate :=
  ⟨"roic", "roic 18%", 18, "%", "https://forum.example/b", "forum.example", 95⟩

/-- Witness for C1: swapping the two candidates leaves `best_value` and
`confidence` unchanged. -/
theorem validator_order_insensitive_witness :
    (validateField (defaultCred 100) "roic" [candForum, candFiling]).best_value =
      (validateField (defaultCred 100) "roic" [candFiling, candForum]).best_value ∧
    (validateField (defaultCred 100) "roic" [candForum, candFiling]).confidence =
      (validateField (defaultCred 100) "roic" [candFiling, candForum]).confidence :=
  validator_order_insensitive (defaultCred 100) "roic" _ _
    (List.Perm.swap candFiling candForum [])

/-- C5: if zero candidates survive the sanity check (in particular for the
empty candidate list), the Validator returns `best_value = none` and
`confidence = 0`; being a total function it raises no error. -/
theorem validator_no_survivors (cred : SearchCandidate → ℚ) (field : String)
    (cands : List SearchCandidate) (h : cands.filter (saneCand field) = []) :
    (validateField cred field cands).best_value = none ∧
    (validateField cred field cands).confidence = 0 := by
  simp only [validateField]
  rw [h]
  simp [bestLexKey]

/-- A candidate whose value 500 lies outside the margin sanity range. -/
def candInsane : SearchCandidate :=
  ⟨"roic", "ROIC: 500%", 500, "%", "https://x.example/c", "x.example", 90⟩

/-- Witness for C5 at a concrete input: the single candidate is demoted by
the sanity check, so the result is null with confidence 0. -/
theorem validator_no_survivors_witness :
    ([candInsane].filter (saneCand "roic") = []) ∧
    (validateField (defaultCred 100) "roic" [candInsane]).best_value = none ∧
    (validateField (defaultCred 100) "roic" [candInsane]).confidence = 0 :=
  ⟨by decide, validator_no_survivors (defaultCred 100) "roic" [candInsane]
    (by decide)⟩

/-! ## Fundamentals data model and Metric Calculator (spec §3, §4.7;
`EnhancedPhilTownCalculator` and `metric_computation.py` are absent from the
repository, so the calculator is modelled from the spec) -/

/-- Provenance of a field value (spec §3 `FieldValue.source`). -/
inductive Source : Type
| primary : Source
| imputed : Source
deriving DecidableEq

/-- `FieldValue` (spec §3). -/
structure FieldValue where
  value : Option ℚ
  source : Source
  confidence : ℚ
deriving DecidableEq

/-- `FundamentalsBundle` (spec §3): a keyed mapping from field name to
`FieldValue`, superseded (entries prepended), never mutated. -/
def Bundle : Type := List (String × FieldValue)

/-- Read a field from a bundle; a missing key behaves as a null value with
confidence 0. -/
def getField (b : Bundle) (f : String) : FieldValue :=
  (List.lookup f b).getD ⟨none, .imputed, 0⟩

/-- Modelled from the spec: the confidence a field contributes to a metric —
a field whose imputation failed (null value) counts as confidence 0 (§8
"null→treated as 0 if imputation failed"). -/
def effectiveConfidence (fv : FieldValue) : ℚ :=
  match fv.value with
  | none => 0
  | some _ => fv.confidence

/-- Whether a field value came from the primary provider. -/
def isPrimaryFV (fv : FieldValue) : Bool := decide (fv.source = Source.primary)

/-- Modelled from the spec: confidence propagation of the Metric Calculator
(§4.7): a metric's confidence is the minimum effective confidence of the
field values it consumed, except that a metric whose inputs are all primary
reports the primary baseline 1.0 (§8). -/
def metricConfidence (inputs : List FieldValue) : ℚ :=
  if inputs.all isPrimaryFV then 1
  else
    match inputs with
    | [] => 1
    | x :: xs =>
      xs.foldl (fun a fv => min a (effectiveConfidence fv))
        (effectiveConfidence x)

/-- A computed strategy metric, carrying the field values it consumed and its
propagated confidence (spec §3 `StrategyMetricSet` entry). -/
structure Metric where
  name : String
  value : Option ℚ
  confidence : ℚ
  inputs : List FieldValue
  note : String
deriving DecidableEq

/-- Build a metric from its consumed inputs with propagated confidence. -/
def mkMetric (name : String) (inputs : List FieldValue) (v : Option ℚ)
    (note : String) : Metric :=
  ⟨name, v, metricConfidence inputs, inputs, note⟩

/-- Modelled from the spec: division with the §4.7 domain rule — a zero or
negative denominator (or any null input) yields `none` rather than raising. -/
def divOrNull (num den : Option ℚ) : Option ℚ :=
  match num, den with
  | some n, some d => if d ≤ 0 then none else some (n / d)
  | _, _ => none

/-- Modelled from the spec: ROIC = NOPAT / invested capital (§4.7), null on a
non-positive invested capital or any missing input. -/
def roicValue (ebit tax equity ltd : Option ℚ) : Option ℚ :=
  match ebit, tax, equity, ltd with
  | some e, some t, some eq, some d =>
    if eq + d ≤ 0 then none else some (e * (1 - t) / (eq + d))
  | _, _, _, _ => none

/-- Modelled from the spec: the Phil Town metric set of the Metric Calculator
(§4.7; plan §"Phil Town Strategy Metrics"): ROIC from EBIT, tax rate,
stockholder equity and long-term debt, and debt payoff years = long-term
debt / free cash flow. -/
def philTownMetrics (b : Bundle) : List Metric :=
  let ebit := getField b "ebit"
  let tax := getField b "tax_rate"
  let equity := getField b "stockholders_equity"
  let ltd := getField b "long_term_debt"
  let fcf := getField b "fcf"
  [mkMetric "roic" [ebit, tax, equity, ltd]
     (roicValue ebit.value tax.value equity.value ltd.value)
     "NOPAT / invested capital",
   mkMetric "debt_payoff_years" [ltd, fcf] (divOrNull ltd.value fcf.value)
     "long-term debt / free cash flow"]

/-- Modelled from the spec: the High-Growth metric set (§4.7; plan
§"High-Growth Strategy Metrics"): net margin and price-to-sales ratio. -/
def highGrowthMetrics (b : Bundle) : List Metric :=
  let revenue := getField b "revenue"
  let netIncome := getField b "net_income"
  let marketCap := getField b "market_cap"
  [mkMetric "net_margin" [netIncome, revenue]
     (divOrNull netIncome.value revenue.value) "net income / revenue",
   mkMetric "psr" [marketCap, revenue]
     (divOrNull marketCap.value revenue.value) "market cap / revenue"]

/-- The Metric Calculator dispatched on the strategy name. -/
def computeMetrics (strategy : String) (b : Bundle) : List Metric :=
  if strategy = "phil_town" then philTownMetrics b
  else if strategy = "high_growth" then highGrowthMetrics b
  else []

theorem foldl_min_le_init (xs : List ℚ) (a : ℚ) :
    xs.foldl (fun x y => min x y) a ≤ a := by
  induction xs generalizing a with
  | nil => exact le_rfl
  | cons x xs ih =>
    calc (x :: xs).foldl (fun x y => min x y) a
        = xs.foldl (fun x y => min x y) (min a x) := rfl
      _ ≤ min a x := ih (min a x)
      _ ≤ a := min_le_left a x

theorem foldl_min_le_mem (xs : List ℚ) (a : ℚ) :
    ∀ y ∈ xs, xs.foldl (fun x y => min x y) a ≤ y := by
  induction xs generalizing a with
  | nil => intro y hy; cases hy
  | cons x xs ih =>
    intro y hy
    rcases List.mem_cons.mp hy with rfl | hy
    · calc (y :: xs).foldl (fun x y => min x y) a
          = xs.foldl (fun x y => min x y) (min a y) := rfl
        _ ≤ min a y := foldl_min_le_init xs (min a y)
        _ ≤ y := min_le_right a y
    · exact ih (min a x) y hy

theorem foldl_min_attained (xs : List ℚ) (a : ℚ) :
    xs.foldl (fun x y => min x y) a = a ∨
      ∃ y ∈ xs, xs.foldl (fun x y => min x y) a = y := by
  induction xs generalizing a with
  | nil => exact Or.inl rfl
  | cons x xs ih =>
    rcases ih (min a x) with h | ⟨y, hy, h⟩
    · rcases min_choice a x with hax | hax
      · exact Or.inl (by rw [show (x :: xs).foldl (fun x y => min x y) a
          = xs.foldl (fun x y => min x y) (min a x) from rfl, h, hax])
      · exact Or.inr ⟨x, List.mem_cons_self x xs, by
          rw [show (x :: xs).foldl (fun x y => min x y) a
            = xs.foldl (fun x y => min x y) (min a x) from rfl, h, hax]⟩
    · exact Or.inr ⟨y, List.mem_cons_of_mem x hy, h⟩

theorem foldl_min_map_eff (xs : List FieldValue) (a : ℚ) :
    xs.foldl (fun x fv => min x (effectiveConfidence fv)) a =
      (xs.map effectiveConfidence).foldl (fun x y => min x y) a := by
  induction xs generalizing a with
  | nil => rfl
  | cons x xs ih => exact ih (min a (effectiveConfidence x))

theorem metricConfidence_spec (inputs : List FieldValue) :
    (inputs.all isPrimaryFV = true → metricConfidence inputs = 1) ∧
    (inputs ≠ [] → inputs.all isPrimaryFV = false →
      (∀ fv ∈ inputs, metricConfidence inputs ≤ effectiveConfidence fv) ∧
      ∃ fv ∈ inputs, metricConfidence inputs = effectiveConfidence fv) := by
  constructor
  · intro h
    unfold metricConfidence
    rw [if_pos h]
  · intro hne h
    rcases inputs with _ | ⟨x, xs⟩
    · exact absurd rfl hne
    · have hmc : metricConfidence (x :: xs) =
          (xs.map effectiveConfidence).foldl (fun a y => min a y)
            (effectiveConfidence x) := by
        unfold metricConfidence
        rw [if_neg (by simp [h]), ← foldl_min_map_eff]
      rw [hmc]
      constructor
      · intro fv hfv
        rcases List.mem_cons.mp hfv with rfl | hfv
        · exact foldl_min_le_init (xs.map effectiveConfidence)
            (effectiveConfidence fv)
        · exact foldl_min_le_mem (xs.map effectiveConfidence)
            (effectiveConfidence x) (effectiveConfidence fv)
            (List.mem_map_of_mem effectiveConfidence hfv)
      · rcases foldl_min_attained (xs.map effectiveConfidence)
            (effectiveConfidence x) with hx | ⟨y, hy, hxy⟩
        · exact ⟨x, List.mem_cons_self x xs, hx⟩
        · rcases List.mem_map.mp hy with ⟨fv, hfv, rfl⟩
          exact ⟨fv, List.mem_cons_of_mem x hfv, hxy⟩

/-- C4: every metric produced by the Metric Calculator (for any strategy and
any merged bundle) carries a confidence equal to the minimum effective
confidence among the field values it consumed — a field whose imputation
failed counting as confidence 0 — unless all of its inputs are primary, in
which case the confidence is the primary baseline 1. -/
theorem metric_confidence_propagation (strategy : String) (b : Bundle) :
    ∀ m ∈ computeMetrics strategy b,
      (m.inputs.all isPrimaryFV = true → m.confidence = 1) ∧
      (m.inputs.all isPrimaryFV = false →
        (∀ fv ∈ m.inputs, m.confidence ≤ effectiveConfidence fv) ∧
        ∃ fv ∈ m.inputs, m.confidence = effectiveConfidence fv) := by
  intro m hm
  have hconf : m.confidence = metricConfidence m.inputs ∧ m.inputs ≠ [] := by
    unfold computeMetrics at hm
    split_ifs at hm <;>
      simp [philTownMetrics, highGrowthMetrics, mkMetric] at hm <;>
      rcases hm with rfl | rfl <;> simp
  rcases hconf with ⟨hc, hne⟩
  rcases metricConfidence_spec m.inputs with ⟨h1, h2⟩
  exact ⟨fun h => hc.trans (h1 h), fun h => by
    rw [hc]
    exact h2 hne h⟩

/-- A fully primary field value with confidence 1. -/
def primaryFV (v : ℚ) : FieldValue := ⟨some v, .primary, 1⟩

/-- An imputed field value with the given confidence. -/
def imputedFV (v : ℚ) (conf : ℚ) : FieldValue := ⟨some v, .imputed, conf⟩

/-- A concrete bundle with one imputed low-confidence field, for the C4
witness. -/
def mixedBundle : Bundle :=
  [("ebit", primaryFV 100), ("tax_rate", primaryFV (1/5)),
   ("stockholders_equity", primaryFV 300),
   ("long_term_debt", imputedFV 50 (3/10)), ("fcf", primaryFV 40)]

/-- Witness for C4: in a bundle whose `long_term_debt` was imputed with
confidence 0.3, the debt-payoff metric is present and reports confidence
0.3 = min(0.3, 1). -/
theorem metric_confidence_propagation_witness :
    ∃ m ∈ computeMetrics "phil_town" mixedBundle,
      m.name = "debt_payoff_years" ∧
      m.inputs.all isPrimaryFV = false ∧
      ((m.inputs.all isPrimaryFV = true → m.confidence = 1) ∧
       (m.inputs.all isPrimaryFV = false →
         (∀ fv ∈ m.inputs, m.confidence ≤ effectiveConfidence fv) ∧
         ∃ fv ∈ m.inputs, m.confidence = effectiveConfidence fv)) ∧
      m.confidence = 3/10 := by
  have hmem : mkMetric "debt_payoff_years"
      [imputedFV 50 (3/10), primaryFV 40]
      (divOrNull (some 50) (some 40)) "long-term debt / free cash flow" ∈
      computeMetrics "phil_town" mixedBundle := by
    have hms : computeMetrics "phil_town" mixedBundle =
        [mkMetric "roic"
           [primaryFV 100, primaryFV (1/5), primaryFV 300, imputedFV 50 (3/10)]
           (roicValue (some 100) (some (1/5)) (some 300) (some 50))
           "NOPAT / invested capital",
         mkMetric "debt_payoff_years" [imputedFV 50 (3/10), primaryFV 40]
           (divOrNull (some 50) (some 40))
           "long-term debt / free cash flow"] := rfl
    rw [hms]
    simp
  refine ⟨mkMetric "debt_payoff_years"
    [imputedFV 50 (3/10), primaryFV 40]
    (divOrNull (some 50) (some 40)) "long-term debt / free cash flow",
    hmem, rfl, ?_, ?_, ?_⟩
  · rfl
  · exact metric_confidence_propagation "phil_town" mixedBundle _ hmem
  · show metricConfidence [imputedFV 50 (3/10), primaryFV 40] = 3/10
    have : (List.all [imputedFV 50 (3/10), primaryFV 40] isPrimaryFV) =
        false := rfl
    unfold metricConfidence
    rw [if_neg (by simp [this])]
    show min (3/10 : ℚ) 1 = 3/10
    norm_num

/-! ## Gap Analyzer and Field Requirements Catalog (plan `DataGapAnalyzer`,
spec §4.1, §7) -/

/-- `ConfigurationError` (spec §7): fatal error for an unknown strategy /
missing Field Requirements entry. -/
structure ConfigurationError where
  message : String
deriving DecidableEq

/-- A strategy's field requirements bucketed by tier (spec §3
`FieldRequirement`). -/
structure StrategyRequirements where
  critical : List String
  important : List String
  optional : List String
deriving DecidableEq

/-- Modelled from the spec: the Field Requirements Catalog entry for
`phil_town` (the catalog itself is absent from the repository; fields from
the plan's "Phil Town Strategy Metrics" list). -/
def philTownRequirements : StrategyRequirements :=
  ⟨["ebit", "tax_rate", "stockholders_equity", "long_term_debt", "fcf"],
   ["eps_growth", "sales_growth"], ["insider_ownership"]⟩

/-- Modelled from the spec: the Field Requirements Catalog entry for
`high_growth` (fields from the plan's "High-Growth Strategy Metrics"). -/
def highGrowthRequirements : StrategyRequirements :=
  ⟨["revenue", "net_income", "market_cap"], ["ev_to_ebitda"],
   ["insider_ownership"]⟩

/-- The Field Requirements Catalog: strategies with an entry. -/
def strategyRequirementsTable (strategy : String) :
    Option StrategyRequirements :=
  if strategy = "phil_town" then some philTownRequirements
  else if strategy = "high_growth" then some highGrowthRequirements
  else none

/-- Modelled from the spec:
`DataGapAnalyzer._load_strategy_requirements` (no body in the plan) — spec
§4.1/§7: an unknown strategy name, i.e. one with no Field Requirements
entry, fails with `ConfigurationError`; the caller must not proceed with an
empty requirement set. -/
def loadStrategyRequirements (strategy : String) :
    Except ConfigurationError StrategyRequirements :=
  match strategyRequirementsTable strategy with
  | some r => Except.ok r
  | none => Except.error ⟨"unknown strategy: " ++ strategy⟩

/-- Modelled from the spec: `DataGapAnalyzer._field_available` (no body in
the plan) — §4.1: a field is available when its value is non-null. -/
def fieldAvailable (b : Bundle) (f : String) : Bool :=
  match List.lookup f b with
  | some fv => fv.value.isSome
  | none => false

/-- `GapReport` (spec §3; the `gaps` dict of `DataGapAnalyzer.analyze_gaps`). -/
structure GapReport where
  critical : List String
  important : List String
  optional : List String
  search_queries : List (String × List String)
deriving DecidableEq

/-- `DataGapAnalyzer.analyze_gaps`: collect the critical required fields not
available in the bundle, with their generated search queries (the plan's loop
only fills the `critical` bucket). -/
def analyzeGaps (strategy : String) (reqs : StrategyRequirements)
    (stock_data : Bundle) (ticker : String) : GapReport :=
  let missing := reqs.critical.filter (fun f => ! fieldAvailable stock_data f)
  ⟨missing, [], [],
   missing.map (fun f => (f, generate_queries ticker f strategy))⟩

/-- `DataGapAnalyzer` end to end: loading the strategy's requirements (which
fails with `ConfigurationError` on an unknown strategy) and then analyzing
gaps. -/
def dataGapAnalyzerRun (strategy : String) (stock_data : Bundle)
    (ticker : String) : Except ConfigurationError GapReport :=
  match loadStrategyRequirements strategy with
  | Except.error e => Except.error e
  | Except.ok reqs => Except.ok (analyzeGaps strategy reqs stock_data ticker)

/-- C8: for every strategy name with no Field Requirements entry, gap
analysis fails with a `ConfigurationError` naming the strategy — it never
returns a gap report (so it cannot silently proceed with an empty
requirement set). -/
theorem unknown_strategy_configuration_error (strategy : String)
    (stock_data : Bundle) (ticker : String)
    (h : strategyRequirementsTable strategy = none) :
    dataGapAnalyzerRun strategy stock_data ticker =
      Except.error ⟨"unknown strategy: " ++ strategy⟩ := by
  unfold dataGapAnalyzerRun loadStrategyRequirements
  rw [h]

/-- Witness for C8: the unknown strategy name `momentum` aborts gap analysis
with a `ConfigurationError`. -/
theorem unknown_strategy_configuration_error_witness :
    strategyRequirementsTable "momentum" = none ∧
    dataGapAnalyzerRun "momentum" [] "AAPL" =
      Except.error ⟨"unknown strategy: " ++ "momentum"⟩ :=
  ⟨by decide,
   unknown_strategy_configuration_error "momentum" [] "AAPL" (by decide)⟩

/-! ## Phil Town analysis orchestration
(plan `PhilTownAnalysisWithImputation._arun`) -/

/-- The analysis result shape assembled by
`PhilTownAnalysisWithImputation._arun` (the fields the claims touch). -/
structure AnalysisResult where
  ticker : String
  missing_critical_fields : List String
  imputation_attempted : Bool
  imputation_results : List (String × ValidationResult)
  final_metrics : List Metric
deriving DecidableEq

/-- Modelled from the spec: `_merge_imputed_data` (no body in the plan) —
merge each `ValidationResult` into a working copy of the bundle as an
imputed `FieldValue` (spec §3/§4.8: supersede, never mutate). -/
def mergeImputed (b : Bundle)
    (imps : List (String × ValidationResult)) : Bundle :=
  imps.foldl
    (fun acc p =>
      (p.1, FieldValue.mk p.2.best_value Source.imputed p.2.confidence) :: acc)
    b

/-- `PhilTownAnalysisWithImputation._arun`: fetch primary data, analyze gaps
for `phil_town`, impute over the critical gaps when web search is enabled
and gaps exist (`if enable_web_search and data_gaps['critical']`), and
compute the final metrics on the (possibly enhanced) bundle.  The primary
fetcher and the imputer (`IntelligentDataImputer`, absent from the
repository) are injected capabilities. -/
def philTownArun (fetch : String → Bundle)
    (impute : String → List String → List (String × ValidationResult))
    (ticker : String) (enable_web_search : Bool) :
    Except ConfigurationError AnalysisResult :=
  let stock_data := fetch ticker
  match loadStrategyRequirements "phil_town" with
  | Except.error e => Except.error e
  | Except.ok reqs =>
    let data_gaps := analyzeGaps "phil_town" reqs stock_data ticker
    if enable_web_search && ! data_gaps.critical.isEmpty then
      let imputation_results := impute ticker data_gaps.critical
      let enhanced_data := mergeImputed stock_data imputation_results
      Except.ok ⟨ticker, data_gaps.critical, true, imputation_results,
        philTownMetrics enhanced_data⟩
    else
      Except.ok ⟨ticker, data_gaps.critical, false, [],
        philTownMetrics stock_data⟩

/-- C2: for a ticker whose primary bundle is fully populated (every field
required by `phil_town` is available), running the analysis with
`enable_web_search = true` and with `enable_web_search = false` yields the
same result — in particular identical `final_metrics` — and no imputation is
attempted in either run. -/
theorem web_search_flag_irrelevant_when_populated (fetch : String → Bundle)
    (impute : String → List String → List (String × ValidationResult))
    (ticker : String)
    (h : ∀ f ∈ philTownRequirements.critical ++
        philTownRequirements.important ++ philTownRequirements.optional,
      fieldAvailable (fetch ticker) f = true) :
    philTownArun fetch impute ticker true =
      philTownArun fetch impute ticker false ∧
    ∀ r, philTownArun fetch impute ticker true = Except.ok r →
      r.imputation_attempted = false ∧
      r.final_metrics = philTownMetrics (fetch ticker) := by
  have hcrit : (analyzeGaps "phil_town" philTownRequirements (fetch ticker)
      ticker).critical = [] := by
    unfold analyzeGaps
    simp only
    rw [List.filter_eq_nil_iff]
    intro f hf
    simp [h f (by simp [hf])]
  have hload : loadStrategyRequirements "phil_town" =
      Except.ok philTownRequirements := rfl
  have harun : ∀ e : Bool, philTownArun fetch impute ticker e =
      Except.ok ⟨ticker, [], false, [],
        philTownMetrics (fetch ticker)⟩ := by
    intro e
    unfold philTownArun
    rw [hload]
    simp [hcrit]
  refine ⟨(harun true).trans (harun false).symm, ?_⟩
  intro r hr
  rw [harun true] at hr
  cases hr
  exact ⟨rfl, rfl⟩

/-- A fully populated primary bundle for the C2 witness. -/
def fullBundle : Bundle :=
  [("ebit", primaryFV 100), ("tax_rate", primaryFV 2),
   ("stockholders_equity", primaryFV 300),
   ("long_term_debt", primaryFV 50), ("fcf", primaryFV 40),
   ("eps_growth", primaryFV 10), ("sales_growth", primaryFV 12),
   ("insider_ownership", primaryFV 5)]

/-- Witness for C2: with a fully populated concrete bundle, both runs agree
and no imputation is attempted. -/
theorem web_search_flag_irrelevant_witness :
    (∀ f ∈ philTownRequirements.critical ++
        philTownRequirements.important ++ philTownRequirements.optional,
      fieldAvailable fullBundle f = true) ∧
    (philTownArun (fun _ => fullBundle) (fun _ _ => []) "AAPL" true =
       philTownArun (fun _ => fullBundle) (fun _ _ => []) "AAPL" false ∧
     ∀ r, philTownArun (fun _ => fullBundle) (fun _ _ => []) "AAPL" true =
         Except.ok r →
       r.imputation_attempted = false ∧
       r.final_metrics = philTownMetrics fullBundle) :=
  ⟨by decide,
   web_search_flag_irrelevant_when_populated (fun _ => fullBundle)
     (fun _ _ => []) "AAPL" (by decide)⟩

/-! ## Frontend API client (`lib/api/client.ts`): `apiFetch` token refresh -/

/-- The token slots of `localStorage`
(`fundamint_access_token`, `fundamint_refresh_token`). -/
structure ClientState where
  access : Option String
  refresh : Option String
deriving DecidableEq

/-- `clearTokens`: remove both stored tokens. -/
def clearTokens (_ : ClientState) : ClientState := ⟨none, none⟩

/-- `setTokens`: store both tokens. -/
def setTokens (accessToken refreshToken : String) (_ : ClientState) :
    ClientState := ⟨some accessToken, some refreshToken⟩

/-- A network response: HTTP status plus the parsed JSON body's `detail`
field and the payload. -/
structure HttpResponse where
  status : ℕ
  detail : String
  body : String
deriving DecidableEq

/-- `response.ok` of the fetch API: status in [200, 300). -/
def respOk (r : HttpResponse) : Bool := decide (200 ≤ r.status ∧ r.status < 300)

/-- `ApiError` (status and detail message). -/
structure ApiError where
  status : ℕ
  detail : String
deriving DecidableEq

/-- The network as seen by one logical `apiFetch` call: the endpoint's
response for each attempt (indexed by attempt number, given the Authorization
token sent), and the refresh endpoint's outcome (`none` covers both a non-ok
response and a thrown network error; `some` carries the new token pair). -/
structure FetchEnv where
  mainResp : ℕ → Option String → HttpResponse
  refreshResp : String → Option (String × String)

/-- `refreshAccessToken`: with no stored refresh token return `null`;
otherwise call the refresh endpoint — on failure clear the tokens and return
`null`, on success store and return the new access token. -/
def refreshAccessToken (env : FetchEnv) (st : ClientState) :
    Option String × ClientState :=
  match st.refresh with
  | none => (none, st)
  | some rt =>
    match env.refreshResp rt with
    | none => (none, clearTokens st)
    | some p => (some p.1, setTokens p.1 p.2 st)

/-- Observable outcome of an `apiFetch` call: the returned data or thrown
`ApiError`, the final token state, and instrumentation counting refresh
calls and request attempts. -/
structure FetchOutcome where
  result : Except ApiError (Option String)
  state : ClientState
  refreshCalls : ℕ
  attempts : ℕ

/-- `apiFetch`: issue the request with the stored access token; on a 401
with `retry` set, call `refreshAccessToken` — on success re-issue the
request once with `retry = false`, on failure clear tokens and throw
`ApiError(401, 'Session expired. Please login again.')`; a 204 returns
`undefined`; otherwise parse the body and throw `ApiError` on a non-ok
status. -/
def apiFetch (env : FetchEnv) (retry : Bool) (attempt : ℕ)
    (st : ClientState) : FetchOutcome :=
  if h : (env.mainResp attempt st.access).status = 401 ∧ retry = true then
    match refreshAccessToken env st with
    | (some _, st1) =>
      let o := apiFetch env false (attempt + 1) st1
      ⟨o.result, o.state, o.refreshCalls + 1, o.attempts + 1⟩
    | (none, st1) =>
      ⟨Except.error ⟨401, "Session expired. Please login again."⟩,
       clearTokens st1, 1, 1⟩
  else if (env.mainResp attempt st.access).status = 204 then
    ⟨Except.ok none, st, 0, 1⟩
  else if respOk (env.mainResp attempt st.access) then
    ⟨Except.ok (some (env.mainResp attempt st.access).body), st, 0, 1⟩
  else
    ⟨Except.error ⟨(env.mainResp attempt st.access).status,
       (env.mainResp attempt st.access).detail⟩, st, 0, 1⟩
termination_by retry.toNat
decreasing_by simp [h.2]

theorem apiFetch_no_retry_no_refresh (env : FetchEnv) (attempt : ℕ)
    (st : ClientState) :
    (apiFetch env false attempt st).refreshCalls = 0 ∧
    (apiFetch env false attempt st).attempts = 1 := by
  rw [apiFetch]
  rw [dif_neg (by simp)]
  split_ifs <;> exact ⟨rfl, rfl⟩

/-- C10: `apiFetch` refreshes at most once per logical request: (i) the
refresh counter never exceeds 1; (ii) on a 401 first response, if the
refresh succeeds the request is re-issued exactly once with `retry = false`
(one further attempt, no further refresh) and its outcome is returned;
(iii) if the refresh fails the stored tokens are cleared and
`ApiError 401 'Session expired. Please login again.'` is thrown; (iv) if the
re-issued request again returns 401, no second refresh happens and the 401
is surfaced as the parse-path `ApiError`. -/
theorem apiFetch_refresh_at_most_once (env : FetchEnv) (st : ClientState) :
    (apiFetch env true 0 st).refreshCalls ≤ 1 ∧
    ((env.mainResp 0 st.access).status = 401 →
      (∀ a st1, refreshAccessToken env st = (some a, st1) →
        apiFetch env true 0 st =
          ⟨(apiFetch env false 1 st1).result, (apiFetch env false 1 st1).state,
           1, (apiFetch env false 1 st1).attempts + 1⟩ ∧
        (apiFetch env false 1 st1).refreshCalls = 0 ∧
        (apiFetch env false 1 st1).attempts = 1) ∧
      (∀ st1, refreshAccessToken env st = (none, st1) →
        (apiFetch env true 0 st).result =
          Except.error ⟨401, "Session expired. Please login again."⟩ ∧
        (apiFetch env true 0 st).state = ⟨none, none⟩ ∧
        (apiFetch env true 0 st).refreshCalls = 1) ∧
      (∀ a st1, refreshAccessToken env st = (some a, st1) →
        (env.mainResp 1 st1.access).status = 401 →
        (env.mainResp 1 st1.access).status ≠ 204 →
        (apiFetch env true 0 st).refreshCalls = 1 ∧
        (apiFetch env true 0 st).result =
          Except.error ⟨(env.mainResp 1 st1.access).status,
            (env.mainResp 1 st1.access).detail⟩)) := by
  have hstep : (env.mainResp 0 st.access).status = 401 →
      apiFetch env true 0 st =
        (match refreshAccessToken env st with
         | (some _, st1) =>
           ⟨(apiFetch env false 1 st1).result,
            (apiFetch env false 1 st1).state,
            (apiFetch env false 1 st1).refreshCalls + 1,
            (apiFetch env false 1 st1).attempts + 1⟩
         | (none, st1) =>
           ⟨Except.error ⟨401, "Session expired. Please login again."⟩,
            clearTokens st1, 1, 1⟩) := by
    intro h401
    rw [apiFetch, dif_pos ⟨h401, rfl⟩]
  constructor
  · by_cases h401 : (env.mainResp 0 st.access).status = 401
    · rw [hstep h401]
      rcases hrf : refreshAccessToken env st with ⟨tok, st1⟩
      cases tok
      · simp
      · simp [(apiFetch_no_retry_no_refresh env 1 st1).1]
    · have hne : ¬ ((env.mainResp 0 st.access).status = 401 ∧
          (true : Bool) = true) := by simp [h401]
      rcases h204 : decide ((env.mainResp 0 st.access).status = 204) with _ | _
      all_goals rcases hok : respOk (env.mainResp 0 st.access) with _ | _
      all_goals simp only [decide_eq_false_iff_not, decide_eq_true_eq]
          at h204
      all_goals rw [apiFetch, dif_neg hne]
      · rw [if_neg h204, if_neg (by simp [hok])]
        simp
      · rw [if_neg h204, if_pos hok]
        simp
      · rw [if_pos h204]
        simp
      · rw [if_pos h204]
        simp
  · intro h401
    refine ⟨?_, ?_, ?_⟩
    · intro a st1 hrf
      rw [hstep h401, hrf]
      refine ⟨?_, (apiFetch_no_retry_no_refresh env 1 st1).1,
        (apiFetch_no_retry_no_refresh env 1 st1).2⟩
      simp [(apiFetch_no_retry_no_refresh env 1 st1).1]
    · intro st1 hrf
      rw [hstep h401, hrf]
      exact ⟨rfl, rfl, rfl⟩
    · intro a st1 hrf h401b h204
      have hsecond : apiFetch env false 1 st1 =
          ⟨Except.error ⟨(env.mainResp 1 st1.access).status,
            (env.mainResp 1 st1.access).detail⟩, st1, 0, 1⟩ := by
        rw [apiFetch]
        rw [dif_neg (by simp)]
        rw [if_neg h204, if_neg (by simp [respOk, h401b])]
      rw [hstep h401, hrf]
      simp [hsecond]

/-- A network where the endpoint answers 401 on both attempts and the
refresh endpoint succeeds, for the C10 witness. -/
def envDouble401 : FetchEnv :=
  ⟨fun _ _ => ⟨401, "Could not validate credentials", ""⟩,
   fun _ => some ("newAccess", "newRefresh")⟩

/-- Stored-token state before the C10 witness request. -/
def stWitness : ClientState := ⟨some "oldAccess", some "oldRefresh"⟩

/-- Witness for C10: with both attempts answering 401 and a succeeding
refresh, exactly one refresh happens and the second 401 surfaces as the
parse-path `ApiError`. -/
theorem apiFetch_refresh_at_most_once_witness :
    (apiFetch envDouble401 true 0 stWitness).refreshCalls ≤ 1 ∧
    ((apiFetch envDouble401 true 0 stWitness).refreshCalls = 1 ∧
     (apiFetch envDouble401 true 0 stWitness).result =
       Except.error ⟨401, "Could not validate credentials"⟩) :=
  ⟨(apiFetch_refresh_at_most_once envDouble401 stWitness).1,
   ((apiFetch_refresh_at_most_once envDouble401 stWitness).2 rfl).2.2
     "newAccess" ⟨some "newAccess", some "newRefresh"⟩ rfl rfl (by decide)⟩

/-! ## Extraction Pattern Library and Extractor
(plan `FinancialDataPatterns`, spec §4.4).  The Python regexes — all of the
shape `KEYWORD[:\s]+\$?(NUMBER)SUFFIX?` with `re.IGNORECASE` — are embedded
as a scanner over character lists: a keyword matched case-insensitively,
one or more separator characters, an optional dollar sign, a captured
number (`\d+\.?\d*` for percent-style patterns, `\d+(?:,\d{3})*(?:\.\d+)?`
for money-style ones), and an optional `%` or `[BMK]` suffix; `re.findall`
is the non-overlapping left-to-right scan returning the captured group. -/

/-- The digit class `\d` on a character's code point. -/
def isDigitC (c : Char) : Bool := decide (48 ≤ c.toNat ∧ c.toNat ≤ 57)

/-- The separator class `[:\s]` (colon or whitespace). -/
def isSepC (c : Char) : Bool :=
  decide (c.toNat = 58 ∨ c.toNat = 32 ∨ c.toNat = 9 ∨ c.toNat = 10 ∨
    c.toNat = 11 ∨ c.toNat = 12 ∨ c.toNat = 13)

/-- Case-insensitive character equality (`re.IGNORECASE`). -/
def ciEq (a b : Char) : Bool := a.toLower == b.toLower

/-- Case-insensitive "the keyword is a prefix of the text". -/
def ciStarts : List Char → List Char → Bool
| [], _ => true
| _ :: _, [] => false
| k :: ks, c :: cs => ciEq k c && ciStarts ks cs

/-- The two numeric-capture shapes used by the pattern library. -/
inductive NumStyle : Type
| simple : NumStyle
| grouped : NumStyle
deriving DecidableEq

/-- The two optional suffixes used by the pattern library. -/
inductive SuffixKind : Type
| percent : SuffixKind
| bmk : SuffixKind
deriving DecidableEq

/-- One extraction pattern: alternative literal keywords (a character class
like `Long[- ]term` expands to its two literal alternatives), whether a
`\$?` follows the separators, the numeric-capture shape, and the suffix. -/
structure ExtractionPattern where
  keywords : List (List Char)
  money : Bool
  style : NumStyle
  sfx : SuffixKind
deriving DecidableEq

/-- Greedy capture of `\d+\.?\d*`: leading digits, an optional dot, trailing
digits; `none` when no leading digit.  Returns the capture and its length. -/
def matchNumSimple (l : List Char) : Option (List Char × ℕ) :=
  let d1 := l.takeWhile isDigitC
  if d1.isEmpty then none
  else
    match l.drop d1.length with
    | c :: rest =>
      if c.toNat = 46 then
        let d2 := rest.takeWhile isDigitC
        some (d1 ++ c :: d2, d1.length + 1 + d2.length)
      else some (d1, d1.length)
    | [] => some (d1, d1.length)

/-- Greedy capture of `(?:,\d{3})*`: repeated comma-plus-three-digit groups. -/
def commaGroups : List Char → List Char × ℕ
| c1 :: c2 :: c3 :: c4 :: rest =>
  if c1.toNat = 44 && isDigitC c2 && isDigitC c3 && isDigitC c4 then
    let g := commaGroups rest
    (c1 :: c2 :: c3 :: c4 :: g.1, 4 + g.2)
  else ([], 0)
| _ => ([], 0)

/-- Greedy capture of `\d+(?:,\d{3})*(?:\.\d+)?`. -/
def matchNumGrouped (l : List Char) : Option (List Char × ℕ) :=
  let d1 := l.takeWhile isDigitC
  if d1.isEmpty then none
  else
    let l1 := l.drop d1.length
    let g := commaGroups l1
    match l1.drop g.2 with
    | c :: rest =>
      if c.toNat = 46 && ! (rest.takeWhile isDigitC).isEmpty then
        let d2 := rest.takeWhile isDigitC
        some (d1 ++ g.1 ++ c :: d2, d1.length + g.2 + 1 + d2.length)
      else some (d1 ++ g.1, d1.length + g.2)
    | [] => some (d1 ++ g.1, d1.length + g.2)

/-- Dispatch on the numeric-capture shape. -/
def matchNum : NumStyle → List Char → Option (List Char × ℕ)
| .simple => matchNumSimple
| .grouped => matchNumGrouped

/-- Length consumed by `\$?` at the current position. -/
def moneyLen (money : Bool) (l : List Char) : ℕ :=
  if money then
    match l with
    | c :: _ => if c.toNat = 36 then 1 else 0
    | [] => 0
  else 0

/-- Length consumed by the optional suffix (`%?` or `[BMK]?`,
case-insensitive). -/
def sfxLen : SuffixKind → List Char → ℕ
| .percent, c :: _ => if c.toNat = 37 then 1 else 0
| .bmk, c :: _ =>
  if c.toLower.toNat = 98 ∨ c.toLower.toNat = 109 ∨ c.toLower.toNat = 107
  then 1 else 0
| _, [] => 0

/-- First keyword alternative matching at the current position, with its
length. -/
def kwMatch : List (List Char) → List Char → Option ℕ
| [], _ => none
| kw :: kws, l => if ciStarts kw l then some kw.length else kwMatch kws l

/-- Try to match a whole pattern at the current position; returns the
captured number text and the total matched length. -/
def matchAt (p : ExtractionPattern) (l : List Char) : Option (List Char × ℕ) :=
  match kwMatch p.keywords l with
  | none => none
  | some k =>
    let l1 := l.drop k
    let s := (l1.takeWhile isSepC).length
    if s = 0 then none
    else
      let l2 := l1.drop s
      let m := moneyLen p.money l2
      let l3 := l2.drop m
      match matchNum p.style l3 with
      | none => none
      | some cap =>
        some (cap.1, k + s + m + cap.2 + sfxLen p.sfx (l3.drop cap.2))

/-- `re.findall` for one pattern: scan left to right, collect every capture,
resume after each (non-overlapping) match.  The first argument counts
characters of the current match still to be skipped, so the recursion is
structural on the content. -/
def scanPattern (p : ExtractionPattern) : ℕ → List Char → List (List Char)
| _, [] => []
| skip + 1, _ :: rest => scanPattern p skip rest
| 0, c :: rest =>
  match matchAt p (c :: rest) with
  | some cap => cap.1 :: scanPattern p (cap.2 - 1) rest
  | none => scanPattern p 0 rest

/-- All captures of one pattern over the content (`re.findall`). -/
def findallCaptures (p : ExtractionPattern) (l : List Char) :
    List (List Char) :=
  scanPattern p 0 l

/-- `FinancialDataPatterns.PATTERNS`: the per-metric ordered pattern lists
(`.get(metric_type, [])` yields the empty list for unknown metrics). -/
def PATTERNS (metricType : String) : List ExtractionPattern :=
  if metricType = "roic" then
    [⟨["ROIC".data], false, .simple, .percent⟩,
     ⟨["Return on Invested Capital".data], false, .simple, .percent⟩,
     ⟨["return on invested capital".data], false, .simple, .percent⟩]
  else if metricType = "ebit" then
    [⟨["EBIT".data], true, .grouped, .bmk⟩,
     ⟨["Operating Income".data], true, .grouped, .bmk⟩,
     ⟨["Earnings before interest and taxes".data], true, .grouped, .bmk⟩]
  else if metricType = "debt" then
    [⟨["Total Debt".data], true, .grouped, .bmk⟩,
     ⟨["Long-term Debt".data, "Long term Debt".data], true, .grouped, .bmk⟩]
  else []

/-- Value of a digit string. -/
def digitsVal (cs : List Char) : ℕ :=
  cs.foldl (fun a c => 10 * a + (c.toNat - 48)) 0

/-- Modelled from the spec: `_normalize_financial_values` (no body in the
plan) — §4.4: the matched numeric text is converted to a number, thousands
separators are stripped, and a parse failure is discarded silently. -/
def parseNumber (cs : List Char) : Option ℚ :=
  let ds := cs.filter (fun c => ! decide (c.toNat = 44))
  let ip := ds.takeWhile isDigitC
  if ip.isEmpty then none
  else
    match ds.drop ip.length with
    | [] => some (digitsVal ip)
    | c :: frac =>
      if c.toNat = 46 && frac.all isDigitC then
        some ((digitsVal ip : ℚ) + (digitsVal frac : ℚ) / 10 ^ frac.length)
      else none

/-- Drop the captures that fail numeric parsing, keep the parsed values. -/
def normalizeFinancialValues (ms : List (List Char)) : List ℚ :=
  ms.filterMap parseNumber

/-- `FinancialDataPatterns.extract_metric` over a character list: run every
pattern of the metric's list over the content (`for pattern in patterns:
matches.extend(re.findall(...))`) and normalize the collected matches. -/
def extractMetricL (content : List Char) (metricType : String) : List ℚ :=
  normalizeFinancialValues
    ((PATTERNS metricType).foldl
      (fun acc p => acc ++ findallCaptures p content) [])

/-- `FinancialDataPatterns.extract_metric` on a string. -/
def extract_metric (content : String) (metricType : String) : List ℚ :=
  extractMetricL content.data metricType

theorem toNat_ofNat_valid {n : ℕ} (h : n.isValidChar) :
    (Char.ofNat n).toNat = n := by
  unfold Char.ofNat
  rw [dif_pos h]
  rfl

theorem toLower_toNat (c : Char) :
    (Char.toLower c).toNat =
      if 65 ≤ c.toNat ∧ c.toNat ≤ 90 then c.toNat + 32 else c.toNat := by
  show (if c.toNat ≥ 65 ∧ c.toNat ≤ 90 then Char.ofNat (c.toNat + 32)
    else c).toNat = _
  rcases Decidable.em (65 ≤ c.toNat ∧ c.toNat ≤ 90) with h | h
  · rw [if_pos h, if_pos h]
    exact toNat_ofNat_valid (Or.inl (by omega))
  · rw [if_neg h, if_neg h]

theorem toLower_eq_self {c : Char} (h : ¬ (65 ≤ c.toNat ∧ c.toNat ≤ 90)) :
    Char.toLower c = c := by
  show (if c.toNat ≥ 65 ∧ c.toNat ≤ 90 then Char.ofNat (c.toNat + 32)
    else c) = c
  rw [if_neg h]

theorem toLower_idem (c : Char) :
    Char.toLower (Char.toLower c) = Char.toLower c := by
  by_cases h : 65 ≤ c.toNat ∧ c.toNat ≤ 90
  · apply toLower_eq_self
    rw [toLower_toNat, if_pos h]
    omega
  · rw [toLower_eq_self h]
    exact toLower_eq_self h

theorem isDigitC_toLower (c : Char) : isDigitC (Char.toLower c) = isDigitC c := by
  unfold isDigitC
  rw [toLower_toNat]
  rcases Decidable.em (65 ≤ c.toNat ∧ c.toNat ≤ 90) with h | h
  · rw [if_pos h, decide_eq_decide]
    omega
  · rw [if_neg h]

theorem isSepC_toLower (c : Char) : isSepC (Char.toLower c) = isSepC c := by
  unfold isSepC
  rw [toLower_toNat]
  rcases Decidable.em (65 ≤ c.toNat ∧ c.toNat ≤ 90) with h | h
  · rw [if_pos h, decide_eq_decide]
    omega
  · rw [if_neg h]

theorem toLower_toNat_eq_low {m : ℕ} (hm : m < 65) (c : Char) :
    ((Char.toLower c).toNat = m) = (c.toNat = m) := by
  rw [toLower_toNat]
  rcases Decidable.em (65 ≤ c.toNat ∧ c.toNat ≤ 90) with h | h
  · rw [if_pos h]
    apply propext
    constructor <;> (intro hx; omega)
  · rw [if_neg h]

theorem toLower_eq_self_of_low {c : Char} {m : ℕ} (hm : m < 65)
    (h : c.toNat = m) : Char.toLower c = c :=
  toLower_eq_self (by omega)

theorem map_toLower_eq_self {l : List Char}
    (h : ∀ c ∈ l, Char.toLower c = c) : l.map Char.toLower = l := by
  induction l with
  | nil => rfl
  | cons c cs ih =>
    simp only [List.map_cons]
    rw [h c (List.mem_cons_self c cs), ih (fun d hd => h d (List.mem_cons_of_mem c hd))]

theorem isDigitC_not_upper {c : Char} (h : isDigitC c = true) :
    Char.toLower c = c := by
  apply toLower_eq_self
  unfold isDigitC at h
  simp only [decide_eq_true_eq] at h
  omega

theorem takeWhile_digits_map (l : List Char) :
    (l.map Char.toLower).takeWhile isDigitC = l.takeWhile isDigitC := by
  rw [List.takeWhile_map]
  rw [show (isDigitC ∘ Char.toLower) = isDigitC from funext isDigitC_toLower]
  exact map_toLower_eq_self
    (fun c hc => isDigitC_not_upper (List.mem_takeWhile_imp hc))

theorem takeWhile_seps_map_length (l : List Char) :
    ((l.map Char.toLower).takeWhile isSepC).length =
      (l.takeWhile isSepC).length := by
  rw [List.takeWhile_map]
  rw [show (isSepC ∘ Char.toLower) = isSepC from funext isSepC_toLower]
  exact List.length_map _ _

theorem matchNumSimple_map (l : List Char) :
    matchNumSimple (l.map Char.toLower) = matchNumSimple l := by
  unfold matchNumSimple
  rw [takeWhile_digits_map]
  by_cases he : (l.takeWhile isDigitC).isEmpty
  · rw [if_pos he, if_pos he]
  · rw [if_neg he, if_neg he]
    rw [← List.map_drop]
    cases hd : l.drop (l.takeWhile isDigitC).length with
    | nil => rfl
    | cons c rest =>
      simp only [List.map_cons]
      simp only [toLower_toNat_eq_low (show (46:ℕ) < 65 by omega)]
      by_cases h46 : c.toNat = 46
      · rw [if_pos h46, if_pos h46]
        rw [takeWhile_digits_map rest,
          toLower_eq_self_of_low (show (46:ℕ) < 65 by omega) h46]
      · rw [if_neg h46, if_neg h46]

theorem commaGroups_map (l : List Char) :
    commaGroups (l.map Char.toLower) = commaGroups l := by
  induction l using commaGroups.induct with
  | case1 c1 c2 c3 c4 rest hcond ih =>
    simp only [List.map_cons, commaGroups]
    simp only [toLower_toNat_eq_low (show (44:ℕ) < 65 by omega),
      isDigitC_toLower]
    rw [if_pos hcond, if_pos hcond]
    simp only [ih]
    have h44 : c1.toNat = 44 := by
      rcases Bool.and_eq_true_iff.mp hcond with ⟨h123, _⟩
      rcases Bool.and_eq_true_iff.mp h123 with ⟨h12, _⟩
      rcases Bool.and_eq_true_iff.mp h12 with ⟨h1, _⟩
      simpa using h1
    have hd2 : isDigitC c2 = true := by
      rcases Bool.and_eq_true_iff.mp hcond with ⟨h123, _⟩
      rcases Bool.and_eq_true_iff.mp h123 with ⟨h12, _⟩
      rcases Bool.and_eq_true_iff.mp h12 with ⟨_, h2⟩
      exact h2
    have hd3 : isDigitC c3 = true := by
      rcases Bool.and_eq_true_iff.mp hcond with ⟨h123, _⟩
      rcases Bool.and_eq_true_iff.mp h123 with ⟨_, h3⟩
      exact h3
    have hd4 : isDigitC c4 = true :=
      (Bool.and_eq_true_iff.mp hcond).2
    rw [toLower_eq_self_of_low (show (44:ℕ) < 65 by omega) h44,
      isDigitC_not_upper hd2, isDigitC_not_upper hd3, isDigitC_not_upper hd4]
  | case2 c1 c2 c3 c4 rest hcond =>
    simp only [List.map_cons, commaGroups]
    simp only [toLower_toNat_eq_low (show (44:ℕ) < 65 by omega),
      isDigitC_toLower]
    rw [if_neg hcond, if_neg hcond]
  | case3 l hshape =>
    rcases l with _ | ⟨c1, l⟩
    · rfl
    rcases l with _ | ⟨c2, l⟩
    · rfl
    rcases l with _ | ⟨c3, l⟩
    · rfl
    rcases l with _ | ⟨c4, l⟩
    · rfl
    exact (hshape c1 c2 c3 c4 l rfl).elim

theorem matchNumGrouped_map (l : List Char) :
    matchNumGrouped (l.map Char.toLower) = matchNumGrouped l := by
  unfold matchNumGrouped
  dsimp only
  rw [takeWhile_digits_map]
  by_cases he : (l.takeWhile isDigitC).isEmpty
  · rw [if_pos he, if_pos he]
  · rw [if_neg he, if_neg he]
    rw [← List.map_drop, commaGroups_map, ← List.map_drop]
    cases hd : (l.drop (l.takeWhile isDigitC).length).drop
        (commaGroups (l.drop (l.takeWhile isDigitC).length)).2 with
    | nil => rfl
    | cons c rest =>
      simp only [List.map_cons]
      simp only [toLower_toNat_eq_low (show (46:ℕ) < 65 by omega),
        takeWhile_digits_map]
      by_cases hc : (c.toNat = 46 && ! (rest.takeWhile isDigitC).isEmpty) = true
      · rw [if_pos hc, if_pos hc]
        have h46 : c.toNat = 46 := by
          simpa using (Bool.and_eq_true_iff.mp hc).1
        rw [toLower_eq_self_of_low (show (46:ℕ) < 65 by omega) h46]
      · rw [if_neg hc, if_neg hc]

theorem matchNum_map (st : NumStyle) (l : List Char) :
    matchNum st (l.map Char.toLower) = matchNum st l := by
  cases st
  · exact matchNumSimple_map l
  · exact matchNumGrouped_map l

theorem ciStarts_map (kw : List Char) (l : List Char) :
    ciStarts kw (l.map Char.toLower) = ciStarts kw l := by
  induction kw generalizing l with
  | nil => rfl
  | cons k ks ih =>
    cases l with
    | nil => rfl
    | cons c cs =>
      simp only [List.map_cons, ciStarts, ih cs]
      unfold ciEq
      rw [toLower_idem]

theorem kwMatch_map (kws : List (List Char)) (l : List Char) :
    kwMatch kws (l.map Char.toLower) = kwMatch kws l := by
  induction kws with
  | nil => rfl
  | cons kw kws ih =>
    unfold kwMatch
    rw [ciStarts_map, ih]

theorem moneyLen_map (money : Bool) (l : List Char) :
    moneyLen money (l.map Char.toLower) = moneyLen money l := by
  cases money
  · rfl
  · cases l with
    | nil => rfl
    | cons c cs =>
      simp only [List.map_cons, moneyLen]
      simp only [toLower_toNat_eq_low (show (36:ℕ) < 65 by omega)]

theorem sfxLen_map (s : SuffixKind) (l : List Char) :
    sfxLen s (l.map Char.toLower) = sfxLen s l := by
  cases s <;> cases l with
  | nil => rfl
  | cons c cs =>
    simp only [List.map_cons, sfxLen]
    first
    | simp only [toLower_toNat_eq_low (show (37:ℕ) < 65 by omega)]
    | simp only [toLower_idem]

theorem matchAt_map (p : ExtractionPattern) (l : List Char) :
    matchAt p (l.map Char.toLower) = matchAt p l := by
  unfold matchAt
  rw [kwMatch_map]
  cases hk : kwMatch p.keywords l with
  | none => rfl
  | some k =>
    dsimp only
    simp only [← List.map_drop, takeWhile_seps_map_length, moneyLen_map,
      matchNum_map, sfxLen_map]

theorem scanPattern_map (p : ExtractionPattern) (n : ℕ) (l : List Char) :
    scanPattern p n (l.map Char.toLower) = scanPattern p n l := by
  refine scanPattern.induct p
    (fun n l => scanPattern p n (l.map Char.toLower) = scanPattern p n l)
    (fun _ => rfl) ?_ ?_ ?_ n l
  · intro skip c rest ih
    simp only [List.map_cons, scanPattern]
    exact ih
  · intro c rest cap hm ih
    have hmm : matchAt p (Char.toLower c :: List.map Char.toLower rest) =
        some cap := by
      rw [show Char.toLower c :: List.map Char.toLower rest =
        List.map Char.toLower (c :: rest) from rfl, matchAt_map]
      exact hm
    simp only [List.map_cons, scanPattern, hmm, hm]
    rw [ih]
  · intro c rest hm ih
    have hmm : matchAt p (Char.toLower c :: List.map Char.toLower rest) =
        none := by
      rw [show Char.toLower c :: List.map Char.toLower rest =
        List.map Char.toLower (c :: rest) from rfl, matchAt_map]
      exact hm
    simp only [List.map_cons, scanPattern, hmm, hm]
    exact ih

theorem findallCaptures_map (p : ExtractionPattern) (l : List Char) :
    findallCaptures p (l.map Char.toLower) = findallCaptures p l :=
  scanPattern_map p 0 l

theorem foldl_append_mem {α β : Type} (ps : List α) (f : α → List β)
    (acc : List β) (b : β) :
    (b ∈ ps.foldl (fun a p => a ++ f p) acc) ↔
      (b ∈ acc ∨ ∃ p ∈ ps, b ∈ f p) := by
  induction ps generalizing acc with
  | nil => simp
  | cons q qs ih =>
    simp only [List.foldl_cons, ih, List.mem_append]
    constructor
    · rintro ((h | h) | ⟨p, hp, hb⟩)
      · exact Or.inl h
      · exact Or.inr ⟨q, List.mem_cons_self q qs, h⟩
      · exact Or.inr ⟨p, List.mem_cons_of_mem q hp, hb⟩
    · rintro (h | ⟨p, hp, hb⟩)
      · exact Or.inl (Or.inl h)
      · rcases List.mem_cons.mp hp with rfl | hp
        · exact Or.inl (Or.inr hb)
        · exact Or.inr ⟨p, hp, hb⟩

/-- C7: the Extractor (i) applies every pattern in the field's ordered
pattern list without early exit — every capture of every pattern that parses
to a number appears among the extracted values; (ii) matches
case-insensitively — lower-casing the document content leaves the extracted
values unchanged; and (iii) a field with zero matches yields the empty value
list rather than an error (the function is total). -/
theorem extractor_pattern_coverage (content : List Char)
    (metricType : String) :
    (∀ p ∈ PATTERNS metricType, ∀ cap ∈ findallCaptures p content, ∀ v : ℚ,
        parseNumber cap = some v →
        v ∈ extractMetricL content metricType) ∧
    extractMetricL (content.map Char.toLower) metricType =
      extractMetricL content metricType ∧
    ((∀ p ∈ PATTERNS metricType, findallCaptures p content = []) →
      extractMetricL content metricType = []) := by
  refine ⟨?_, ?_, ?_⟩
  · intro p hp cap hcap v hv
    unfold extractMetricL normalizeFinancialValues
    exact List.mem_filterMap.mpr
      ⟨cap, (foldl_append_mem _ _ _ _).mpr (Or.inr ⟨p, hp, hcap⟩), hv⟩
  · unfold extractMetricL
    rw [show (fun (acc : List (List Char)) (p : ExtractionPattern) =>
        acc ++ findallCaptures p (content.map Char.toLower)) =
      (fun acc p => acc ++ findallCaptures p content) from
      funext fun acc => funext fun p => by rw [findallCaptures_map]]
  · intro h
    unfold extractMetricL normalizeFinancialValues
    have hfold : (PATTERNS metricType).foldl
        (fun a p => a ++ findallCaptures p content) [] = [] := by
      rw [List.eq_nil_iff_forall_not_mem]
      intro b hb
      rcases (foldl_append_mem _ _ _ _).mp hb with hc | ⟨p, hp, hb2⟩
      · cases hc
      · rw [h p hp] at hb2
        cases hb2
    rw [hfold]
    rfl

/-- The first `roic` extraction pattern, for the C7 witness. -/
def roicPattern1 : ExtractionPattern :=
  ⟨["ROIC".data], false, .simple, .percent⟩

/-- Witness for C7 on the content `ROIC: 25% vs roic: 30%`: the first
pattern is in the `roic` list, `25` is one of its captures, it parses to the
number 25, and 25 is among the extracted values. -/
theorem extractor_pattern_coverage_witness :
    roicPattern1 ∈ PATTERNS "roic" ∧
    "25".data ∈ findallCaptures roicPattern1 "ROIC: 25% vs roic: 30%".data ∧
    parseNumber "25".data = some ((25 : ℕ) : ℚ) ∧
    ((25 : ℕ) : ℚ) ∈ extractMetricL "ROIC: 25% vs roic: 30%".data "roic" :=
  ⟨by decide, by decide, rfl,
   (extractor_pattern_coverage "ROIC: 25% vs roic: 30%".data "roic").1
     roicPattern1 (by decide) "25".data (by decide) ((25 : ℕ) : ℚ) rfl⟩

end Fundamint
